import Mathlib

/-!
A verification development for the `urlmatch` component of qutebrowser: a
Chromium-like URL match-pattern parser and matcher.  The implementation module
`qutebrowser/utils/urlmatch.py` is not among the reviewed source files (only
its unit tests `tests/unit/utils/test_urlmatch.py` are), so the definitions
below are modelled from the natural-language specification, with the concrete
behaviours that the repository's own unit tests pin down (path `/*`
normalisation, the `file://` authority fold, glob backslash handling) noted on
each definition.  Strings are embedded as lists of characters so that the
parser and matcher can be both executed on concrete inputs and reasoned about
symbolically.
-/

/-- Character-list representation of the Python strings used by the code. -/
abbrev Str := List Char

/-- Modelled from the spec: the discriminated kinds of `ParseError`, the closed
error taxonomy of section 7 (parse-time only; matching never fails). -/
inductive ParseError where
  | MissingSchemeSeparator
  | EmptyHost
  | InvalidHost
  | InvalidHostWildcard
  | TLDWildcardUnsupported
  | EmptyPort
  | InvalidPort
  | PortUnsupportedForScheme
deriving DecidableEq

/-- Modelled from the spec: the immutable `Pattern` value produced by the
parser (`UrlPattern` attributes `_scheme`, `_host`, `_match_subdomains`,
`_match_all`, `_path`, `_port`).  `scheme = none` means the wildcard scheme,
`host = none` matches any host, `path = none` matches any path and
`port = none` matches any port. -/
structure UrlPattern where
  scheme : Option Str
  host : Option Str
  match_subdomains : Bool
  match_all : Bool
  path : Option Str
  port : Option Nat
deriving DecidableEq

/-- Modelled from the spec: the decomposed URL handed to the matcher by the
URL library (scheme, host, explicit port when present, path).  `port = none`
means the URL carries no explicit port. -/
structure DecomposedUrl where
  scheme : Str
  host : Str
  port : Option Nat
  path : Str
deriving DecidableEq

/-- Convenience constructor for concrete decomposed URLs. -/
def mkUrl (s h : String) (po : Option Nat) (pa : String) : DecomposedUrl :=
  ⟨s.data, h.data, po, pa.data⟩

/-- Split a list at the first occurrence of `sep`: returns the part before it
and, when `sep` occurs, the part after it. -/
def splitFirst (sep : Char) : Str → Str × Option Str
  | [] => ([], none)
  | c :: cs =>
    if c = sep then ([], some cs)
    else
      let r := splitFirst sep cs
      (c :: r.1, r.2)

/-- Modelled from the spec: FQDN normalisation, stripping one trailing dot. -/
def stripTrailingDot : Str → Str
  | [] => []
  | [c] => if c = '.' then [] else [c]
  | c :: d :: rest => c :: stripTrailingDot (d :: rest)

/-- Whether `suf` is a suffix of `s` (used for `".", host` subdomain checks and
for the `.*` TLD-wildcard detection). -/
def endsWithL (suf s : Str) : Bool := suf.isSuffixOf s

/-- Whether a string contains the `*` character. -/
def hasStar (s : Str) : Bool := s.any (fun c => c == '*')

/-- ASCII lowercasing of a character-list string. -/
def lowerStr (s : Str) : Str := s.map Char.toLower

/-- Modelled from the spec: syntactic IP-literal detection for a stored host
(dotted/numeric form; the bracketed IPv6 form is already rejected by the
parser, so it cannot reach the matcher). -/
def hostIsIpLiteral (h : Str) : Bool :=
  !h.isEmpty && h.all (fun c => c.isDigit || c == '.')

/-- Modelled from the spec: the path glob matcher.  `*` matches any sequence
of characters (including `/` and the empty sequence); every other character,
including the backslash, matches itself literally.  The repository's tests
(`TestMatchGlobEscaping`) pin that a backslash is an ordinary literal
character and a `*` after it keeps its wildcard meaning at match time. -/
def globMatch : Str → Str → Bool
  | [], s => s.isEmpty
  | c :: g, s =>
    if c = '*' then s.tails.any (fun t => globMatch g t)
    else
      match s with
      | [] => false
      | d :: s2 => decide (c = d) && globMatch g s2

/-- Modelled from the spec: recognised authority-less ("special") schemes. -/
def noHostSchemes : List Str := ["about".data, "data".data, "javascript".data]

/-- Modelled from the spec: a scheme token is the wildcard `*` or a non-empty
run of lowercase letters (grammar rule `scheme := "*" | 1*LOWER_ALPHA`). -/
def isValidScheme (t : Str) : Bool :=
  t == ['*'] || (!t.isEmpty && t.all (fun c => c.isLower))

/-- The wildcard scheme `*` is stored as absent; anything else verbatim. -/
def someScheme (t : Str) : Option Str := if t = ['*'] then none else some t

/-- Modelled from the spec: storage of the path section.  A present section is
stored verbatim as the glob (escapes untouched), except that the repository's
tests (`TestMatchChromeUrls`, `TestMatchIpAddresses`, `TestMatchAnything`) pin
that a section consisting exactly of `/*` is stored as an absent path (which
matches any path, an equivalent meaning). -/
def storePath : Option Str → Option Str
  | none => none
  | some s => if s = ['/', '*'] then none else some s

/-- Modelled from the spec: interpretation of the host token (step 4 of the
parsing algorithm).  One trailing dot is stripped first (FQDN normalisation,
mirroring the code stripping dots before splitting); a bare `*` means any host
with subdomain matching; a `*.` prefix strips to the stored host with
subdomain matching, and per step 4 any `*` remaining in that stored host fails
with `InvalidHostWildcard`; for every other token the recognised-but-
unsupported trailing `.*` effective-TLD form fails with
`TLDWildcardUnsupported` and any other `*` with `InvalidHostWildcard`. -/
def parseHost (token : Str) : Except ParseError (Option Str × Bool) :=
  if stripTrailingDot token = ['*'] then .ok (none, true)
  else if (stripTrailingDot token).take 2 = ['*', '.'] then
    if hasStar ((stripTrailingDot token).drop 2) then .error .InvalidHostWildcard
    else .ok (some ((stripTrailingDot token).drop 2), true)
  else if endsWithL ['.', '*'] (stripTrailingDot token) then
    .error .TLDWildcardUnsupported
  else if hasStar (stripTrailingDot token) then .error .InvalidHostWildcard
  else .ok (some (stripTrailingDot token), false)

/-- Numeric value of a digit string. -/
def digitsToNat (t : Str) : Nat :=
  t.foldl (fun a c => a * 10 + (c.toNat - 48)) 0

/-- Modelled from the spec: interpretation of the port token (step 5).  No
token means any port; `*` is an explicit wildcard; an empty token is an error;
a token with any non-digit character (including a second colon) is invalid, as
is a numeric value above 65535. -/
def parsePort : Option Str → Except ParseError (Option Nat)
  | none => .ok none
  | some t =>
    if t = [] then .error .EmptyPort
    else if t = ['*'] then .ok none
    else if t.all Char.isDigit then
      if digitsToNat t ≤ 65535 then .ok (some (digitsToNat t))
      else .error .InvalidPort
    else .error .InvalidPort

/-- Modelled from the spec: processing of the authority and path sections
(steps 3 to 6) once the authority has been split from the path section at the
first `/`.  An empty or whitespace-only authority is legal only for `file`
(test-pinned); a NUL byte or a leading `[` (IPv6) is rejected; otherwise the
authority splits at its first `:` into host and optional port tokens, and a
`chrome` scheme with any port token at all is rejected. -/
def parseAuthority (schemeTok authority : Str) (pathRest : Option Str) :
    Except ParseError (Option Str × Option Str × Bool × Option Str × Option Nat) :=
  if authority.isEmpty || authority.all Char.isWhitespace then
    if schemeTok = "file".data then
      .ok (someScheme schemeTok, none, false,
        storePath (pathRest.map (fun r => '/' :: r)), none)
    else .error .EmptyHost
  else if authority.contains '\x00' then .error .InvalidHost
  else if authority.take 1 = ['['] then .error .InvalidHost
  else
    match parseHost (splitFirst ':' authority).1 with
    | .error e => .error e
    | .ok (host, subs) =>
      match parsePort (splitFirst ':' authority).2 with
      | .error e => .error e
      | .ok port =>
        if schemeTok = "chrome".data ∧ (splitFirst ':' authority).2 ≠ none then
          .error .PortUnsupportedForScheme
        else .ok (someScheme schemeTok, host, subs,
          storePath (pathRest.map (fun r => '/' :: r)), port)

/-- Modelled from the spec: dispatch on the scheme token (step 2).  Special
schemes take the whole remainder as an opaque path glob and refuse a `//`;
authority-bearing schemes require `//`, after which a `file` scheme with a
non-empty authority folds the authority into the path (`file://foo*` is
handled like `file:///foo*`, pinned by `TestFileScheme`), and the remainder
splits at the first `/` into authority and path sections. -/
def parseAfterScheme (schemeTok rest : Str) : Except ParseError
    (Option Str × Option Str × Bool × Option Str × Option Nat) :=
  if isValidScheme schemeTok = false then .error .MissingSchemeSeparator
  else if schemeTok ∈ noHostSchemes then
    if rest.take 2 = ['/', '/'] then .error .MissingSchemeSeparator
    else .ok (someScheme schemeTok, none, false, storePath (some rest), none)
  else if rest.take 2 ≠ ['/', '/'] then .error .MissingSchemeSeparator
  else
    match splitFirst '/'
        (if schemeTok = "file".data ∧ (rest.drop 2).take 1 ≠ ['/'] then
          '/' :: rest.drop 2
        else rest.drop 2) with
    | (authority, pathRest) => parseAuthority schemeTok authority pathRest

/-- Modelled from the spec: the parsing pipeline for every pattern other than
the `<all_urls>` sentinel, returning the scheme, host, subdomain flag, path
and port fields: split at the first colon, then process per scheme kind. -/
def parseNonAll (pattern : Str) : Except ParseError
    (Option Str × Option Str × Bool × Option Str × Option Nat) :=
  match splitFirst ':' pattern with
  | (_, none) => .error .MissingSchemeSeparator
  | (schemeTok, some rest) => parseAfterScheme schemeTok rest

/-- Modelled from the spec: `parse` on character lists.  The sentinel
`<all_urls>` yields the match-all pattern directly; everything else goes
through `parseNonAll`, with `match_all` always false. -/
def parseCore (pattern : Str) : Except ParseError UrlPattern :=
  if pattern = "<all_urls>".data then
    .ok ⟨none, none, false, true, none, none⟩
  else
    (parseNonAll pattern).map
      (fun x => ⟨x.1, x.2.1, x.2.2.1, false, x.2.2.2.1, x.2.2.2.2⟩)

/-- Modelled from the spec: `parse(pattern) -> Pattern | ParseError`. -/
def parse (s : String) : Except ParseError UrlPattern := parseCore s.data

/-- Modelled from the spec: conventional default ports per scheme, used when
the URL omits an explicit port (the `_DEFAULT_PORTS` table). -/
def defaultPort (scheme : Str) : Option Nat :=
  if scheme = "http".data then some 80
  else if scheme = "https".data then some 443
  else if scheme = "ftp".data then some 21
  else none

/-- Modelled from the spec: scheme check (step 2 of the matcher) — a wildcard
pattern scheme passes, otherwise case-insensitive equality is required. -/
def matchesScheme (ps : Option Str) (us : Str) : Bool :=
  match ps with
  | none => true
  | some s => decide (lowerStr s = lowerStr us)

/-- Modelled from the spec: host check (step 4 of the matcher).  An absent
pattern host matches anything; otherwise both hosts are FQDN-normalised, an
IP-literal pattern host requires exact equality regardless of the subdomain
flag, and a subdomain pattern also accepts any strict subdomain. -/
def matchesHost (ph : Option Str) (subs : Bool) (uhost : Str) : Bool :=
  match ph with
  | none => true
  | some h =>
    if hostIsIpLiteral (stripTrailingDot h) then
      decide (stripTrailingDot uhost = stripTrailingDot h)
    else if subs then
      decide (stripTrailingDot uhost = stripTrailingDot h) ||
        endsWithL ('.' :: stripTrailingDot h) (stripTrailingDot uhost)
    else decide (stripTrailingDot uhost = stripTrailingDot h)

/-- Modelled from the spec: port check (step 5 of the matcher).  An absent
pattern port passes; otherwise the URL's explicit port, or its scheme's
conventional default when omitted, must equal the pattern port. -/
def matchesPort (pp : Option Nat) (uscheme : Str) (uport : Option Nat) : Bool :=
  match pp with
  | none => true
  | some v =>
    match uport with
    | some up => decide (up = v)
    | none =>
      match defaultPort uscheme with
      | some d => decide (d = v)
      | none => false

/-- Modelled from the spec: path check (step 6 of the matcher) — ordinary glob
matching plus the trailing-slash leniency rule: a URL path equal to the glob
minus a final `/*` is also accepted. -/
def matchesPath (pp : Option Str) (upath : Str) : Bool :=
  match pp with
  | none => true
  | some g => globMatch g upath || decide (upath ++ ['/', '*'] = g)

/-- Modelled from the spec: `matches(pattern, url) -> bool`, the short-circuit
conjunction of the scheme, host, port and path checks, with the `match_all`
escape hatch. -/
def urlMatches (p : UrlPattern) (u : DecomposedUrl) : Bool :=
  p.match_all ||
    (matchesScheme p.scheme u.scheme &&
     matchesHost p.host p.match_subdomains u.host &&
     matchesPort p.port u.scheme u.port &&
     matchesPath p.path u.path)

/-- Parse a pattern string and match it against a URL: `none` when the
pattern fails to parse, otherwise the matcher's verdict. -/
def patternMatches (ps : String) (u : DecomposedUrl) : Option Bool :=
  match parse ps with
  | .ok p => some (urlMatches p u)
  | .error _ => none

/-! ### Helper lemmas -/

theorem hasStar_false_iff (s : Str) : hasStar s = false ↔ '*' ∉ s := by
  rw [← Bool.not_eq_true, hasStar, List.any_eq_true]
  simp

theorem globMatch_no_star : ∀ (g p : Str), hasStar g = false → (globMatch g p = true ↔ p = g) := by
  intro g
  induction g with
  | nil => intro p _; cases p <;> simp [globMatch]
  | cons c g ih =>
    intro p hs
    rw [hasStar_false_iff] at hs
    have hc : ¬ c = '*' := fun h => hs (h ▸ List.mem_cons_self c g)
    have hg : hasStar g = false :=
      (hasStar_false_iff g).mpr (fun h => hs (List.mem_cons_of_mem c h))
    cases p with
    | nil => simp [globMatch, hc]
    | cons d p2 =>
      simp only [globMatch, if_neg hc, Bool.and_eq_true, decide_eq_true_eq,
        ih p2 hg, List.cons.injEq]
      exact ⟨fun ⟨h1, h2⟩ => ⟨h1.symm, h2⟩, fun ⟨h1, h2⟩ => ⟨h1.symm, h2⟩⟩

theorem getLast_append_slash_star (p : Str) : (p ++ ['/', '*']).getLast? = some '*' := by
  rw [List.getLast?_append_cons]
  rfl

theorem splitFirst_append_sep (sep : Char) (a r : Str) (h : sep ∉ a) :
    splitFirst sep (a ++ sep :: r) = (a, some r) := by
  induction a with
  | nil => simp [splitFirst]
  | cons c a2 ih =>
    have hc : ¬ c = sep := by
      intro hh
      exact h (hh ▸ List.mem_cons_self c a2)
    have h2 : sep ∉ a2 := fun hm => h (List.mem_cons_of_mem c hm)
    simp [splitFirst, hc, ih h2]

theorem splitFirst_not_mem (sep : Char) (a : Str) (h : sep ∉ a) :
    splitFirst sep a = (a, none) := by
  induction a with
  | nil => simp [splitFirst]
  | cons c a2 ih =>
    have hc : ¬ c = sep := by
      intro hh
      exact h (hh ▸ List.mem_cons_self c a2)
    have h2 : sep ∉ a2 := fun hm => h (List.mem_cons_of_mem c hm)
    simp [splitFirst, hc, ih h2]

theorem isValidScheme_no_colon (sc : Str) (hv : isValidScheme sc = true) :
    ':' ∉ sc := by
  intro hm
  rw [isValidScheme, Bool.or_eq_true] at hv
  rcases hv with hv | hv
  · rw [beq_iff_eq] at hv
    rw [hv] at hm
    simp at hm
  · rw [Bool.and_eq_true] at hv
    have h2 := List.all_eq_true.mp hv.2 ':' hm
    exact absurd h2 (by decide)

theorem parseCore_of_colon {p : Str} (hc : ':' ∈ p) :
    parseCore p =
      (parseNonAll p).map
        (fun x => ⟨x.1, x.2.1, x.2.2.1, false, x.2.2.2.1, x.2.2.2.2⟩) := by
  have hne : p ≠ "<all_urls>".data := by
    intro he
    rw [he] at hc
    exact absurd hc (by decide)
  rw [parseCore, if_neg hne]

theorem parseNonAll_split (sc rest : Str) (h : ':' ∉ sc) :
    parseNonAll (sc ++ ':' :: rest) = parseAfterScheme sc rest := by
  rw [parseNonAll, splitFirst_append_sep ':' sc rest h]

theorem parseAfterScheme_authority (sc rst : Str)
    (hv : isValidScheme sc = true) (hns : sc ∉ noHostSchemes)
    (hfile : sc ≠ "file".data) :
    parseAfterScheme sc ('/' :: '/' :: rst) =
      parseAuthority sc (splitFirst '/' rst).1 (splitFirst '/' rst).2 := by
  rw [parseAfterScheme, if_neg (by simp [hv]), if_neg hns,
    if_neg (fun h => h rfl), if_neg (by simp [hfile])]
  rfl

theorem parseAfterScheme_file (rst : Str) (hns : rst.take 1 ≠ ['/']) :
    parseAfterScheme "file".data ('/' :: '/' :: rst) =
      parseAuthority "file".data [] (some rst) := by
  rw [parseAfterScheme, if_neg (by decide), if_neg (by decide),
    if_neg (fun h => h rfl), if_pos ⟨rfl, hns⟩]
  rfl

/-- C4: the sentinel pattern `<all_urls>` parses to a pattern with `match_all`
true, and the matcher returns true for every decomposed URL, regardless of its
scheme, host, port or path (so in particular for `about:blank`, `data:` URLs,
`file:///` URLs and custom-scheme URLs). -/
theorem all_urls_matches_everything (u : DecomposedUrl) :
    ∃ p, parse "<all_urls>" = Except.ok p ∧ p.match_all = true ∧
      urlMatches p u = true :=
  ⟨⟨none, none, false, true, none, none⟩, rfl, rfl, rfl⟩

/-- C7: trailing-dot (FQDN) equivalence — for each combination of pattern in
`*://example.com/*`, `*://example.com./*` and URL host `example.com`,
`example.com.`, the match succeeds; a trailing dot on either side never
affects the outcome. -/
theorem trailing_dot_equivalence :
    patternMatches "*://example.com/*" (mkUrl "http" "example.com" none "/") = some true ∧
    patternMatches "*://example.com/*" (mkUrl "http" "example.com." none "/") = some true ∧
    patternMatches "*://example.com./*" (mkUrl "http" "example.com" none "/") = some true ∧
    patternMatches "*://example.com./*" (mkUrl "http" "example.com." none "/") = some true :=
  ⟨rfl, rfl, rfl, rfl⟩

/-- C10: for every `file` pattern whose authority segment is non-empty (the
remainder after `file://` is non-empty and does not start with `/`), the
parser folds the whole remainder into the path and silently drops any port:
the host is absent, `match_subdomains` is false, the port is absent, and the
stored path is `/` followed by the remainder (through the usual `storePath`).
Concretely, `file://foo*` parses with host absent, `match_subdomains` false
and path `/foo*` (so it matches `file:///foo` and `file://localhost/foo` but
not `file://foo`), and `file://foo:1234/bar` parses with an absent port
rather than 1234. -/
theorem file_scheme_folding :
    (∀ rst : Str, rst ≠ [] → rst.take 1 ≠ ['/'] →
      parseCore ("file".data ++ ':' :: '/' :: '/' :: rst) =
        Except.ok ⟨some "file".data, none, false, false,
          storePath (some ('/' :: rst)), none⟩) ∧
    parse "file://foo*" =
      Except.ok ⟨some "file".data, none, false, false, some "/foo*".data, none⟩ ∧
    patternMatches "file://foo*" (mkUrl "file" "" none "/foo") = some true ∧
    patternMatches "file://foo*" (mkUrl "file" "localhost" none "/foo") = some true ∧
    patternMatches "file://foo*" (mkUrl "file" "foo" none "") = some false ∧
    parse "file://foo:1234/bar" =
      Except.ok ⟨some "file".data, none, false, false, some "/foo:1234/bar".data, none⟩ := by
  refine ⟨?_, rfl, rfl, rfl, rfl, rfl⟩
  intro rst _ h1
  rw [parseCore_of_colon (List.mem_append.mpr (Or.inr (List.mem_cons_self _ _))),
    parseNonAll_split "file".data _ (by decide),
    parseAfterScheme_file rst h1]
  rfl

/-- Witness for `file_scheme_folding`: the fold applied to the non-empty
authority remainder `foo*`. -/
theorem file_scheme_folding_witness :
    parseCore ("file".data ++ ':' :: '/' :: '/' :: "foo*".data) =
      Except.ok ⟨some "file".data, none, false, false,
        storePath (some ('/' :: "foo*".data)), none⟩ :=
  file_scheme_folding.1 "foo*".data (by decide) (by decide)

/-- C9 counterexample: the pattern string `http://127.0.0.1/*` carries the
path section `/*`, yet the parsed pattern stores an absent path — so the path
is not stored verbatim whenever present, and it can be absent even though the
pattern string has a path section. -/
theorem path_star_normalized_counterexample :
    parse "http://127.0.0.1/*" =
      Except.ok ⟨some "http".data, some "127.0.0.1".data, false, false, none, none⟩ ∧
    "http://127.0.0.1/*".data = "http://127.0.0.1".data ++ ['/', '*'] :=
  ⟨rfl, rfl⟩

/-- C9 (amended): for every successfully parsed authority-bearing pattern
whose scheme is not `file` (for `file` the folded authority becomes part of
the stored path), the path section, when present, is stored through
`storePath`: verbatim (backslash-escaped asterisks kept literally), except
that the exact section `/*` is stored as an absent path; and the stored path
is absent when the pattern string has no path section.  The universal part
runs the parser on an arbitrary valid non-special non-`file` scheme, an
arbitrary parseable authority, and an arbitrary path remainder — with and
without a path section. -/
theorem path_storage :
    (∀ (sc A ps : Str) (host : Option Str) (subs : Bool) (port : Option Nat),
      isValidScheme sc = true → sc ∉ noHostSchemes → sc ≠ "file".data →
      '/' ∉ A →
      (A.isEmpty || A.all Char.isWhitespace) = false →
      A.contains '\x00' = false →
      A.take 1 ≠ ['['] →
      parseHost (splitFirst ':' A).1 = Except.ok (host, subs) →
      parsePort (splitFirst ':' A).2 = Except.ok port →
      ¬(sc = "chrome".data ∧ (splitFirst ':' A).2 ≠ none) →
      parseCore (sc ++ ':' :: '/' :: '/' :: (A ++ '/' :: ps)) =
          Except.ok ⟨someScheme sc, host, subs, false,
            storePath (some ('/' :: ps)), port⟩ ∧
        parseCore (sc ++ ':' :: '/' :: '/' :: A) =
          Except.ok ⟨someScheme sc, host, subs, false, none, port⟩) ∧
    (∀ s : Str, storePath (some s) = if s = ['/', '*'] then none else some s) ∧
    storePath none = none := by
  refine ⟨?_, fun _ => rfl, rfl⟩
  intro sc A ps host subs port hv hns hfile hA hempty hnul hbr hhost hport hchrome
  have hcol : ':' ∉ sc := isValidScheme_no_colon sc hv
  have hsp1 : (splitFirst '/' (A ++ '/' :: ps)).1 = A := by
    rw [splitFirst_append_sep '/' A ps hA]
  have hsp2 : (splitFirst '/' (A ++ '/' :: ps)).2 = some ps := by
    rw [splitFirst_append_sep '/' A ps hA]
  have hsn1 : (splitFirst '/' A).1 = A := by rw [splitFirst_not_mem '/' A hA]
  have hsn2 : (splitFirst '/' A).2 = none := by rw [splitFirst_not_mem '/' A hA]
  constructor
  · rw [parseCore_of_colon (List.mem_append.mpr (Or.inr (List.mem_cons_self _ _))),
      parseNonAll_split sc _ hcol,
      parseAfterScheme_authority sc _ hv hns hfile, hsp1, hsp2]
    rw [parseAuthority, if_neg (by rw [hempty]; simp),
      if_neg (by rw [hnul]; simp), if_neg hbr, hhost, hport]
    simp [hchrome, Except.map]
  · rw [parseCore_of_colon (List.mem_append.mpr (Or.inr (List.mem_cons_self _ _))),
      parseNonAll_split sc _ hcol,
      parseAfterScheme_authority sc _ hv hns hfile, hsn1, hsn2]
    rw [parseAuthority, if_neg (by rw [hempty]; simp),
      if_neg (by rw [hnul]; simp), if_neg hbr, hhost, hport]
    simp [hchrome, Except.map, storePath]

/-- Witness for `path_storage` at the concrete pattern
`http://host.com/bar`. -/
theorem path_storage_witness :
    parseCore ("http".data ++ ':' :: '/' :: '/' :: ("host.com".data ++ '/' :: "bar".data)) =
      Except.ok ⟨some "http".data, some "host.com".data, false, false,
        storePath (some ('/' :: "bar".data)), none⟩ :=
  (path_storage.1 "http".data "host.com".data "bar".data
    (some "host.com".data) false none (by decide) (by decide) (by decide)
    (by decide) (by decide) (by decide) (by decide) rfl rfl (by decide)).1

/-- C1: for every pattern with a subdomain-wildcard host (`match_subdomains`
true, host `D`, both hosts free of trailing dots) and every URL passing the
scheme, port and path checks, the matcher returns true exactly when the URL
host equals `D` or ends with `"." ++ D` — except that an IP-literal stored
host requires exact equality and ignores `match_subdomains`.  The concrete
conjuncts evaluate the claim's examples, including `http://*.0.0.1/*` not
matching `http://127.0.0.1`. -/
theorem subdomain_host_check :
    (∀ (p : UrlPattern) (D : Str) (u : DecomposedUrl),
      p.match_all = false →
      p.match_subdomains = true →
      p.host = some D →
      stripTrailingDot D = D →
      stripTrailingDot u.host = u.host →
      matchesScheme p.scheme u.scheme = true →
      matchesPort p.port u.scheme u.port = true →
      matchesPath p.path u.path = true →
      (urlMatches p u = true ↔
        (u.host = D ∨
          (hostIsIpLiteral D = false ∧ endsWithL ('.' :: D) u.host = true)))) ∧
    patternMatches "http://*.google.com/foo*bar"
      (mkUrl "http" "monkey.images.google.com" none "/foooobar") = some true ∧
    patternMatches "http://*.google.com/foo*bar"
      (mkUrl "http" "google.com" none "/foobar") = some true ∧
    patternMatches "http://*.google.com/foo*bar"
      (mkUrl "http" "yahoo.com" none "/foobar") = some false ∧
    patternMatches "http://*.0.0.1/*"
      (mkUrl "http" "127.0.0.1" none "") = some false := by
  refine ⟨?_, rfl, rfl, rfl, rfl⟩
  intro p D u hall hsubs hhost hD hU hS hPo hPa
  rw [urlMatches, hall, hS, hPo, hPa, hhost, hsubs]
  simp only [Bool.false_or, Bool.true_and, Bool.and_true, matchesHost, hD, hU]
  by_cases hip : hostIsIpLiteral D = true
  · simp [hip]
  · have hip2 : hostIsIpLiteral D = false := by
      cases hx : hostIsIpLiteral D
      · rfl
      · exact absurd hx hip
    simp [hip2]

/-- Witness for `subdomain_host_check`: the pattern parsed from
`http://*.google.com/foo*bar` matches the URL
`http://monkey.images.google.com/foooobar`. -/
theorem subdomain_host_check_witness :
    urlMatches
      ⟨some "http".data, some "google.com".data, true, false,
        some "/foo*bar".data, none⟩
      (mkUrl "http" "monkey.images.google.com" none "/foooobar") = true := by
  have h := subdomain_host_check.1
    ⟨some "http".data, some "google.com".data, true, false,
      some "/foo*bar".data, none⟩
    "google.com".data
    (mkUrl "http" "monkey.images.google.com" none "/foooobar")
    rfl rfl rfl (by decide) (by decide) (by decide) (by decide) (by decide)
  exact h.mpr (Or.inr (by decide))

/-- C2: a pattern whose scheme is a stored literal never matches a URL whose
scheme differs case-insensitively, whatever the other fields; and the pattern
`http://*/*` matches `http://google.com`, `http://google.com/foo` and
`http://74.125.127.100/search` but not `https://google.com`. -/
theorem literal_scheme_mismatch :
    (∀ (p : UrlPattern) (u : DecomposedUrl) (s : Str),
      p.match_all = false →
      p.scheme = some s →
      lowerStr s ≠ lowerStr u.scheme →
      urlMatches p u = false) ∧
    patternMatches "http://*/*" (mkUrl "http" "google.com" none "") = some true ∧
    patternMatches "http://*/*" (mkUrl "http" "google.com" none "/foo") = some true ∧
    patternMatches "http://*/*" (mkUrl "http" "74.125.127.100" none "/search") = some true ∧
    patternMatches "http://*/*" (mkUrl "https" "google.com" none "") = some false := by
  refine ⟨?_, rfl, rfl, rfl, rfl⟩
  intro p u s hall hsch hne
  rw [urlMatches, hall, hsch]
  simp [matchesScheme, hne]

/-- Witness for `literal_scheme_mismatch`: the pattern parsed from
`http://*/*` does not match `https://google.com`. -/
theorem literal_scheme_mismatch_witness :
    urlMatches ⟨some "http".data, none, true, false, none, none⟩
      (mkUrl "https" "google.com" none "") = false :=
  literal_scheme_mismatch.1 ⟨some "http".data, none, true, false, none, none⟩
    (mkUrl "https" "google.com" none "") "http".data rfl rfl (by decide)

/-- C3: totality and closed error taxonomy — for every input string `parse`
returns either a structurally valid pattern (in particular, a `match_all`
pattern has every other field absent and `match_subdomains` false) or a
`ParseError` that is one of the eight enumerated kinds, and the matcher always
returns one of the two booleans for every pattern and URL. -/
theorem parse_total_closed_errors :
    (∀ (s : String) (p : UrlPattern), parse s = Except.ok p →
      p.match_all = true →
      p.scheme = none ∧ p.host = none ∧ p.path = none ∧ p.port = none ∧
        p.match_subdomains = false) ∧
    (∀ (s : String) (e : ParseError), parse s = Except.error e →
      (e = ParseError.MissingSchemeSeparator ∨ e = ParseError.EmptyHost ∨
       e = ParseError.InvalidHost ∨ e = ParseError.InvalidHostWildcard ∨
       e = ParseError.TLDWildcardUnsupported ∨ e = ParseError.EmptyPort ∨
       e = ParseError.InvalidPort ∨ e = ParseError.PortUnsupportedForScheme)) ∧
    (∀ s : String, (∃ p, parse s = Except.ok p) ∨ ∃ e, parse s = Except.error e) ∧
    (∀ (p : UrlPattern) (u : DecomposedUrl),
      urlMatches p u = true ∨ urlMatches p u = false) := by
  refine ⟨?_, ?_, ?_, ?_⟩
  · intro s p h hall
    rw [parse, parseCore] at h
    by_cases hx : s.data = "<all_urls>".data
    · rw [if_pos hx] at h
      injection h with h2
      rw [← h2]
      exact ⟨rfl, rfl, rfl, rfl, rfl⟩
    · rw [if_neg hx] at h
      cases hpn : parseNonAll s.data with
      | error e =>
        rw [hpn] at h
        simp [Except.map] at h
      | ok x =>
        rw [hpn] at h
        simp only [Except.map] at h
        injection h with h2
        rw [← h2] at hall
        exact absurd hall (by simp)
  · intro s e _
    cases e <;> simp
  · intro s
    cases h : parse s with
    | ok p => exact Or.inl ⟨p, rfl⟩
    | error e => exact Or.inr ⟨e, rfl⟩
  · intro p u
    cases urlMatches p u
    · exact Or.inr rfl
    · exact Or.inl rfl

/-- Witness for `parse_total_closed_errors`: the pattern produced for
`<all_urls>` has every non-`match_all` field absent. -/
theorem parse_total_closed_errors_witness :
    (⟨none, none, false, true, none, none⟩ : UrlPattern).scheme = none ∧
    (⟨none, none, false, true, none, none⟩ : UrlPattern).host = none ∧
    (⟨none, none, false, true, none, none⟩ : UrlPattern).path = none ∧
    (⟨none, none, false, true, none, none⟩ : UrlPattern).port = none ∧
    (⟨none, none, false, true, none, none⟩ : UrlPattern).match_subdomains = false :=
  parse_total_closed_errors.1 "<all_urls>" ⟨none, none, false, true, none, none⟩ rfl rfl

/-- C6: trailing-slash leniency — a path glob ending in `/*` also accepts the
URL path equal to its prefix without the trailing slash, a glob with no
trailing wildcard gets no such leniency (plain glob matching only, hence exact
equality for a wildcard-free glob), and the pattern
`http://www.example.com/example` matches the URL path `/example` but not
`/example/`, while `http://www.example.com/example/*` matches both. -/
theorem trailing_slash_leniency :
    (∀ gpre : Str, matchesPath (some (gpre ++ ['/', '*'])) gpre = true) ∧
    (∀ (g upath : Str), g.getLast? ≠ some '*' →
      matchesPath (some g) upath = globMatch g upath) ∧
    (∀ (g upath : Str), hasStar g = false →
      (matchesPath (some g) upath = true ↔ upath = g)) ∧
    patternMatches "http://www.example.com/example"
      (mkUrl "http" "www.example.com" none "/example") = some true ∧
    patternMatches "http://www.example.com/example"
      (mkUrl "http" "www.example.com" none "/example/") = some false ∧
    patternMatches "http://www.example.com/example/*"
      (mkUrl "http" "www.example.com" none "/example") = some true ∧
    patternMatches "http://www.example.com/example/*"
      (mkUrl "http" "www.example.com" none "/example/") = some true := by
  refine ⟨?_, ?_, ?_, rfl, rfl, rfl, rfl⟩
  · intro gpre
    simp [matchesPath]
  · intro g upath hlast
    have hd : ¬(upath ++ ['/', '*'] = g) := by
      intro he
      rw [← he] at hlast
      exact hlast (getLast_append_slash_star upath)
    simp [matchesPath, hd]
  · intro g upath hs
    have hd : ¬(upath ++ ['/', '*'] = g) := by
      intro he
      rw [hasStar_false_iff] at hs
      apply hs
      rw [← he, List.mem_append]
      exact Or.inr (by simp)
    simp [matchesPath, hd, globMatch_no_star g upath hs]

/-- Witness for `trailing_slash_leniency`: the wildcard-free glob `/example`
accepts exactly the URL path `/example`. -/
theorem trailing_slash_leniency_witness :
    matchesPath (some "/example".data) "/example".data = true :=
  (trailing_slash_leniency.2.2.1 "/example".data "/example".data (by decide)).mpr rfl

/-- C8: default-port equivalence — a pattern port is compared against the URL
scheme's conventional default port whenever the URL omits an explicit port,
and `http://www.example.com:80/foo` (stored port 80) matches
`http://www.example.com/foo` with and without an explicit port 80, but not
with port 8080. -/
theorem default_port_equivalence :
    (∀ (pp : Nat) (s : Str),
      matchesPort (some pp) s none = true ↔ defaultPort s = some pp) ∧
    parse "http://www.example.com:80/foo" =
      Except.ok ⟨some "http".data, some "www.example.com".data, false, false,
        some "/foo".data, some 80⟩ ∧
    patternMatches "http://www.example.com:80/foo"
      (mkUrl "http" "www.example.com" none "/foo") = some true ∧
    patternMatches "http://www.example.com:80/foo"
      (mkUrl "http" "www.example.com" (some 80) "/foo") = some true ∧
    patternMatches "http://www.example.com:80/foo"
      (mkUrl "http" "www.example.com" (some 8080) "/foo") = some false := by
  refine ⟨?_, rfl, rfl, rfl, rfl⟩
  intro pp s
  cases hd : defaultPort s with
  | none => simp [matchesPort, hd]
  | some d => simp [matchesPort, hd]
